import Mathlib

/-!
Shallow embedding of the SISO simulation/serialization core of PO-lab-MSC-2024
(src/ObiektSISO.h, src/ModelARX.{h,cpp}, src/RegulatorPID.h, src/ObiektStatyczny.hpp,
src/PętlaUAR.{hpp,cpp}, src/generators.hpp, src/util.hpp).

Modelling conventions:
* C++ `double` values are modelled as `ℚ`.  The serialized form of a double
  (`to_bytes` / `std::bit_cast` to 8 bytes) is modelled as an 8-token sequence
  whose first token carries the value and the rest are padding: an injective,
  length-8 encoding, mirroring the only properties of the IEEE bit pattern the
  code relies on (length and invertibility).  The same convention is used for
  `uint32_t` (4 tokens) and `uint64_t` (8 tokens), with the numeric wrap
  (`% 2^32`, `% 2^64`) applied exactly where the C++ type imposes it.
* The Mersenne-Twister + `std::normal_distribution` pipeline is modelled by an
  opaque deterministic function `stdnorm seed n` of the seed and the draw
  counter, matching the code's own serialization strategy (re-seed and replay
  `n_generated` draws reconstructs the generator state exactly).
* `std::deque::back()` / `pop_back()` on an empty deque is undefined behaviour
  in C++; the model returns `none` in that (unreachable for constructed
  objects) case.  All other simulation paths are total.
-/

/-- Token of the serialized byte stream.  `n v` is an ordinary byte-sized
value (also used as the value-carrying token of multi-byte integers), `q v` is
the value-carrying token of a serialized `double`. -/
inductive UB where
  | n (v : Nat)
  | q (v : ℚ)
deriving DecidableEq

/-- Serialization of a `uint8_t` (util.hpp `to_bytes`): one byte. -/
def u8Enc (v : Nat) : List UB := [.n (v % 2^8)]

/-- Serialization of a `uint32_t` (util.hpp `to_bytes`): 4 bytes; the first
token carries the (wrapped) value. -/
def u32Enc (v : Nat) : List UB := [.n (v % 2^32), .n 0, .n 0, .n 0]

/-- Serialization of a `uint64_t` (util.hpp `to_bytes`): 8 bytes. -/
def u64Enc (v : Nat) : List UB :=
  [.n (v % 2^64), .n 0, .n 0, .n 0, .n 0, .n 0, .n 0, .n 0]

/-- Serialization of a `double` (util.hpp `to_bytes`): 8 bytes. -/
def f64Enc (x : ℚ) : List UB := [.q x, .n 0, .n 0, .n 0, .n 0, .n 0, .n 0, .n 0]

/-- Serialization of a contiguous `double` array (`std::memcpy` of
`data()` / `std::copy` into a `double *` in ModelARX::dump). -/
def f64List (l : List ℚ) : List UB := (l.map f64Enc).flatten

/-- Read a `uint8_t` from the front of a buffer (dereferencing the begin
iterator, PętlaUAR.hpp line 72). -/
def takeU8 : List UB → Option (Nat × List UB)
  | .n v :: rest => some (v, rest)
  | _ => none

/-- Read a `uint32_t` from the front of a buffer
(util.hpp `from_byte_range<uint32_t>`: requires at least 4 bytes). -/
def takeU32 : List UB → Option (Nat × List UB)
  | .n v :: _ :: _ :: _ :: rest => some (v, rest)
  | _ => none

/-- Read a `uint64_t` from the front of a buffer (8 bytes). -/
def takeU64 : List UB → Option (Nat × List UB)
  | .n v :: _ :: _ :: _ :: _ :: _ :: _ :: _ :: rest => some (v, rest)
  | _ => none

/-- Read a `double` from the front of a buffer
(util.hpp `from_byte_range<double>` / `array_from_bytes<double>`). -/
def takeF64 : List UB → Option (ℚ × List UB)
  | .q x :: _ :: _ :: _ :: _ :: _ :: _ :: _ :: rest => some (x, rest)
  | _ => none

/-- Read a `uint32_t` without consuming it (util.hpp `from_byte_range`
applied to a view; requires at least 4 bytes). -/
def readU32Val (buf : List UB) : Option Nat :=
  match buf with
  | .n v :: _ :: _ :: _ :: _ => some v
  | _ => none

/-- Read `count` consecutive `double`s (the pointer-walking vector
reconstruction in the ModelARX deserializing constructor). -/
def takeVec : Nat → List UB → Option (List ℚ × List UB)
  | 0, rest => some ([], rest)
  | count + 1, rest => do
    let (x, r1) ← takeF64 rest
    let (xs, r2) ← takeVec count r1
    pure (x :: xs, r2)

/-- Byte-wise prefix test (util.hpp `prefix_match` /
`std::ranges::starts_with`). -/
def tagMatch : List UB → List UB → Bool
  | [], _ => true
  | _ :: _, [] => false
  | x :: xs, y :: ys => x == y && tagMatch xs ys

/-- Serialized `ModelARX::unique_name` "mARX". -/
def tagARX : List UB := [.n 109, .n 65, .n 82, .n 88]

/-- Serialized `RegulatorPID::unique_name` "rPID". -/
def tagPID : List UB := [.n 114, .n 80, .n 73, .n 68]

/-- Serialized `ObiektStatyczny::unique_name` "Stat". -/
def tagStat : List UB := [.n 83, .n 116, .n 97, .n 116]

/-- Serialized `PętlaUAR::unique_name` "UAR". -/
def tagUAR : List UB := [.n 85, .n 65, .n 82]

/-- State of `ObiektStatyczny` (ObiektStatyczny.hpp): clamped affine
function. -/
structure StatS where
  maxV : ℚ
  minV : ℚ
  a : ℚ
  b : ℚ
deriving DecidableEq

/-- State of `RegulatorPID` (RegulatorPID.h). -/
structure PidS where
  k : ℚ
  ti : ℚ
  td : ℚ
  integral : ℚ
  prevE : ℚ
deriving DecidableEq

/-- State of `ModelARX` (ModelARX.h).  `delay` is `m_transport_delay`,
`mean`/`stddev` are the `std::normal_distribution` parameters, `seed` is
`m_init_seed` and `nGen` is `m_n_generated` (the engine state of the PRNG is
fully determined by `(seed, nGen)`, which is exactly how the code serializes
it). -/
structure ArxS where
  coeffA : List ℚ
  coeffB : List ℚ
  delay : Nat
  mean : ℚ
  stddev : ℚ
  inMem : List ℚ
  outMem : List ℚ
  delayMem : List ℚ
  seed : Nat
  nGen : Nat
deriving DecidableEq

mutual
/-- Closed union of the four concrete `ObiektSISO` subclasses. -/
inductive Blk where
  | stat (s : StatS)
  | pid (s : PidS)
  | arx (s : ArxS)
  | loop (closed : Bool) (prev : ℚ) (children : BlkList)
deriving DecidableEq
/-- Children of a `PętlaUAR` (the `m_loop` vector of owned blocks). -/
inductive BlkList where
  | nil
  | cons (b : Blk) (l : BlkList)
deriving DecidableEq
end

/-- Number of children (`PętlaUAR::size`). -/
def lenL : BlkList → Nat
  | .nil => 0
  | .cons _ l => lenL l + 1

/-- Shadow of util.hpp `is_bad_or_neg` on the rational model of `double`:
`std::signbit(x) || !std::isfinite(x)`.  In the `ℚ` model (no negative zero,
no NaN, no infinities) the sign bit is set exactly for negative values. -/
def is_bad_or_negQ (x : ℚ) : Bool := decide (x < 0)

/-- `ObiektStatyczny::symuluj`: `min(max_val, max(min_val, a*u + b))`.  The
object is stateless during simulation. -/
def statSym (s : StatS) (u : ℚ) : ℚ := min s.maxV (max s.minV (s.a * u + s.b))

/-- `RegulatorPID::symuluj`: sum of the proportional part `k*e`, the integral
part (accumulating `e/ti` when `ti > 0`, else `0`) and the derivative part
`td * (e - prev_e)`; updates `m_integral` and `m_prev_e`. -/
def pidSym (s : PidS) (e : ℚ) : PidS × ℚ :=
  let p := s.k * e
  let integral2 := if s.ti > 0 then s.integral + e / s.ti else s.integral
  let i := if s.ti > 0 then integral2 else 0
  let d := s.td * (e - s.prevE)
  ({ s with integral := integral2, prevE := e }, p + i + d)

/-- Modelled stand-in for one draw of `m_distribution(m_mt)` with unit
standard deviation: an arbitrary but fixed deterministic function of the seed
and the draw counter (`ModelARX::get_random` increments the counter after
every draw, and deserialization reconstructs the engine by re-seeding and
replaying, so the drawn value depends only on `(seed, n_generated)` and the
distribution parameters). -/
def stdnorm (seed n : Nat) : ℚ := (((seed + 3 * n) % 1009 : Nat) : ℚ) / 1009 - 1/2

/-- `std::inner_product(c.begin(), c.end(), m.begin(), 0.0)`: iterates over
`c`, reading `m` in step; reading past the end of `m` is undefined behaviour
(modelled as `none`). -/
def dotOpt : List ℚ → List ℚ → Option ℚ
  | [], _ => some 0
  | _ :: _, [] => none
  | c :: cs, m :: ms => (dotOpt cs ms).map (fun r => c * m + r)

/-- `ModelARX::symuluj` (ModelARX.cpp lines 62-79): shift the delayed sample
into `in_mem`, shift `u` into `delay_mem`, compute the two polynomials, draw
one noise sample, and push the result into `out_mem`.  `delay_mem.back()` on
an empty deque is undefined behaviour (`none`). -/
def arxSym (s : ArxS) (u : ℚ) : Option (ArxS × ℚ) :=
  match s.delayMem.getLast? with
  | none => none
  | some dback =>
    let inMem2 := dback :: s.inMem.dropLast
    let delayMem2 := u :: s.delayMem.dropLast
    match dotOpt s.coeffB inMem2, dotOpt s.coeffA s.outMem with
    | some bPoly, some aPoly =>
      let noise := s.mean + s.stddev * stdnorm s.seed s.nGen
      let y := bPoly - aPoly + noise
      some ({ s with
              inMem := inMem2,
              delayMem := delayMem2,
              outMem := y :: s.outMem.dropLast,
              nGen := s.nGen + 1 }, y)
    | _, _ => none

mutual
/-- `ObiektSISO::symuluj` dispatched over the four concrete classes; returns
the updated object state together with the output. -/
def symB : Blk → ℚ → Option (Blk × ℚ)
  | .stat s, u => some (.stat s, statSym s u)
  | .pid s, e =>
    let (s2, y) := pidSym s e
    some (.pid s2, y)
  | .arx s, u => (arxSym s u).map (fun p => (.arx p.1, p.2))
  | .loop closed prev cs, u =>
    let r0 := if closed then u - prev else u
    match symL cs r0 with
    | some (cs2, r) => some (.loop closed r cs2, r)
    | none => none
/-- The `for` loop body of `PętlaUAR::symuluj`: each component processes the
output of its predecessor, the running value starts from the (possibly
feedback-corrected) input. -/
def symL : BlkList → ℚ → Option (BlkList × ℚ)
  | .nil, r => some (.nil, r)
  | .cons b l, r => do
    let (b2, r2) ← symB b r
    let (l2, r3) ← symL l r2
    pure (.cons b2 l2, r3)
end

/-- Outputs of a sequence of `symuluj` calls on a block. -/
def simOutputs : Blk → List ℚ → Option (List ℚ)
  | _, [] => some []
  | b, u :: us => do
    let (b2, y) ← symB b u
    let ys ← simOutputs b2 us
    pure (y :: ys)

/-- `ObiektStatyczny::dump`: `[u32 len]["Stat"][max_val, min_val, a, b]`. -/
def dumpStat (s : StatS) : List UB :=
  u32Enc 36 ++ tagStat ++ f64Enc s.maxV ++ f64Enc s.minV ++ f64Enc s.a ++ f64Enc s.b

/-- `RegulatorPID::dump`: `[u32 len]["rPID"][k, ti, td, integral, prev_e]`. -/
def dumpPID (s : PidS) : List UB :=
  u32Enc 44 ++ tagPID ++ f64Enc s.k ++ f64Enc s.ti ++ f64Enc s.td
    ++ f64Enc s.integral ++ f64Enc s.prevE

/-- `ModelARX::dump` (ModelARX.cpp lines 81-125): length prefix, tag, the
fixed-size `raw_data_t` struct, then the five `double` arrays back to back. -/
def dumpARX (s : ArxS) : List UB :=
  u32Enc ((s.coeffA.length + s.coeffB.length + s.inMem.length + s.outMem.length
      + s.delayMem.length) * 8 + 72 + 4)
    ++ tagARX
    ++ u64Enc s.coeffA.length ++ u64Enc s.coeffB.length
    ++ f64Enc s.mean ++ f64Enc s.stddev
    ++ u64Enc s.inMem.length ++ u64Enc s.outMem.length ++ u64Enc s.delayMem.length
    ++ u64Enc s.seed ++ u64Enc s.nGen
    ++ f64List s.coeffA ++ f64List s.coeffB
    ++ f64List s.inMem ++ f64List s.outMem ++ f64List s.delayMem

mutual
/-- `ObiektSISO::dump` dispatched over the four concrete classes.  The loop
case is `PętlaUAR::dump`:
`[u32 len]["UAR"][u8 closed][f64 prev_result][u64 count][children...]`. -/
def dumpB : Blk → List UB
  | .stat s => dumpStat s
  | .pid s => dumpPID s
  | .arx s => dumpARX s
  | .loop closed prev cs =>
    let elements := dumpL cs
    u32Enc (20 + elements.length) ++ tagUAR ++ u8Enc (if closed then 1 else 0)
      ++ f64Enc prev ++ u64Enc (lenL cs) ++ elements
/-- Concatenation of the children's dumps (the `views::join` in
`PętlaUAR::dump`). -/
def dumpL : BlkList → List UB
  | .nil => []
  | .cons b l => dumpB b ++ dumpL l
end

mutual
/-- Reachability invariants used by the round-trip theorems: PID parameters
are nonnegative (enforced by every RegulatorPID constructor and setter), the
ARX transport delay equals the delay queue length (established by
`set_transport_delay` and preserved by `symuluj`), and all serialized records
are small enough for their `uint32_t` length prefix not to wrap. -/
def wfB : Blk → Bool
  | .stat _ => true
  | .pid s => !is_bad_or_negQ s.k && !is_bad_or_negQ s.ti && !is_bad_or_negQ s.td
  | .arx s =>
    (s.delay == s.delayMem.length)
      && decide ((s.coeffA.length + s.coeffB.length + s.inMem.length
          + s.outMem.length + s.delayMem.length) * 8 + 76 < 2^32)
      && decide (s.seed < 2^64) && decide (s.nGen < 2^64)
  | .loop _ _ cs => wfL cs && decide ((dumpL cs).length + 20 < 2^32)
/-- All children are well-formed. -/
def wfL : BlkList → Bool
  | .nil => true
  | .cons b l => wfB b && wfL l
end

/-- The `ObiektStatyczny` deserializing constructor (ObiektStatyczny.hpp
lines 44-67): requires at least the 40-byte fixed frame, checks the tag after
the length field, then reads `max_val, min_val, a, b`.  Trailing bytes beyond
the fixed frame are ignored. -/
def parseStat (buf : List UB) : Option Blk :=
  if buf.length < 40 then none
  else if !tagMatch tagStat (buf.drop 4) then none
  else do
    let (maxV, r1) ← takeF64 (buf.drop 8)
    let (minV, r2) ← takeF64 r1
    let (a, r3) ← takeF64 r2
    let (b, _) ← takeF64 r3
    pure (.stat ⟨maxV, minV, a, b⟩)

/-- The `RegulatorPID` deserializing constructor (RegulatorPID.h lines
75-98): requires at least the 48-byte fixed frame, checks the tag, reads the
five `double`s, then re-checks the parameter constraints
(`check_constraints`).  Trailing bytes are ignored. -/
def parsePID (buf : List UB) : Option Blk :=
  if buf.length < 48 then none
  else if !tagMatch tagPID (buf.drop 4) then none
  else do
    let (k, r1) ← takeF64 (buf.drop 8)
    let (ti, r2) ← takeF64 r1
    let (td, r3) ← takeF64 r2
    let (integral, r4) ← takeF64 r3
    let (prevE, _) ← takeF64 r4
    if is_bad_or_negQ k || is_bad_or_negQ ti || is_bad_or_negQ td then none
    else pure (.pid ⟨k, ti, td, integral, prevE⟩)

/-- The `raw_data_t` helper struct of ModelARX (ModelARX.h lines 52-71). -/
structure RawArx where
  nA : Nat
  nB : Nat
  mean : ℚ
  stddev : ℚ
  inN : Nat
  outN : Nat
  delayN : Nat
  seed : Nat
  nGen : Nat
deriving DecidableEq

/-- The `std::memcpy(&raw_data, s_ptr, sizeof(raw_data_t))` of the ModelARX
deserializing constructor: read the nine fixed-width fields in declaration
order. -/
def takeRaw (buf : List UB) : Option (RawArx × List UB) := do
  let (nA, r1) ← takeU64 buf
  let (nB, r2) ← takeU64 r1
  let (mean, r3) ← takeF64 r2
  let (stddev, r4) ← takeF64 r3
  let (inN, r5) ← takeU64 r4
  let (outN, r6) ← takeU64 r5
  let (delayN, r7) ← takeU64 r6
  let (seed, r8) ← takeU64 r7
  let (nGen, r9) ← takeU64 r8
  pure (⟨nA, nB, mean, stddev, inN, outN, delayN, seed, nGen⟩, r9)

/-- The `ModelARX` deserializing constructor (ModelARX.h lines 92-152):
requires at least the 80-byte constant-length part, checks the tag, reads the
`raw_data_t` struct, requires the buffer length to equal exactly the size
declared by the struct, then reads the five `double` arrays.  The transport
delay is the `uint32_t` cast of `delay_n`, and the PRNG state is restored by
re-seeding and replaying `n_generated` draws (captured by the `(seed, nGen)`
fields). -/
def parseARX (buf : List UB) : Option Blk :=
  if buf.length < 80 then none
  else if !tagMatch tagARX (buf.drop 4) then none
  else
    match takeRaw (buf.drop 8) with
    | none => none
    | some (raw, r9) =>
      if buf.length ≠ (raw.nA + raw.nB + raw.inN + raw.outN + raw.delayN) * 8 + 72 + 4 + 4
      then none
      else do
        let (coeffA, r10) ← takeVec raw.nA r9
        let (coeffB, r11) ← takeVec raw.nB r10
        let (inMem, r12) ← takeVec raw.inN r11
        let (outMem, r13) ← takeVec raw.outN r12
        let (delayMem, _) ← takeVec raw.delayN r13
        pure (.arx ⟨coeffA, coeffB, raw.delayN % 2^32, raw.mean, raw.stddev,
                    inMem, outMem, delayMem, raw.seed, raw.nGen⟩)

mutual
/-- `ObiektSISO::deserialize` (ObiektSISO.h lines 51-65): scan the registered
(tag, factory) pairs, matching each tag against the buffer after skipping the
`uint32_t` length field, and hand the whole buffer to the matching factory
(the four tags differ in their first byte, so at most one matches).  The
`PętlaUAR` factory (PętlaUAR.hpp lines 51-86) is inlined here: it checks the
minimum frame size, reads and checks the declared length, then reads the
closed flag, the previous result, the child count, and that many
self-framed child records. -/
def deserialize (buf : List UB) : Option Blk :=
  if tagMatch tagARX (buf.drop 4) then parseARX buf
  else if tagMatch tagPID (buf.drop 4) then parsePID buf
  else if tagMatch tagStat (buf.drop 4) then parseStat buf
  else if tagMatch tagUAR (buf.drop 4) then
    if h24 : buf.length < 24 then none
    else
      match readU32Val buf with
      | none => none
      | some dataLen =>
        if buf.length < dataLen + 4 then none
        else
          match takeU8 (buf.drop 7), takeF64 (buf.drop 8), takeU64 (buf.drop 16) with
          | some (cb, _), some (prev, _), some (count, _) =>
            match parseChildren count (buf.drop 24) with
            | some cs => some (.loop (decide (0 < cb)) prev cs)
            | none => none
          | _, _, _ => none
  else none
  termination_by buf.length
/-- The child-reading loop of the `PętlaUAR` deserializing constructor:
read the child's `uint32_t` length `l`, deserialize exactly the child's
`l + 4`-byte frame, and advance past it. -/
def parseChildren (count : Nat) (rest : List UB) : Option BlkList :=
  match count with
  | 0 => some .nil
  | count + 1 =>
    if h4 : rest.length < 4 then none
    else
      match readU32Val rest with
      | none => none
      | some l =>
        match deserialize (rest.take (l + 4)) with
        | none => none
        | some c =>
          match parseChildren count (rest.drop (4 + l)) with
          | some cs => some (.cons c cs)
          | none => none
  termination_by rest.length + 21
end

/-- `ModelARX::set_coeff_a` (ModelARX.cpp lines 32-37): resize
`m_out_signal_mem` to the new coefficient count (`std::deque::resize`
preserves the existing leading entries and value-initializes new ones to 0),
then store the coefficients. -/
def ArxS.set_coeff_a (s : ArxS) (coefficients : List ℚ) : ArxS :=
  { s with
    outMem := s.outMem.take coefficients.length
      ++ List.replicate (coefficients.length - s.outMem.length) 0,
    coeffA := coefficients }

/-- `ModelARX::set_coeff_b` (ModelARX.cpp lines 39-44): resize
`m_in_signal_mem` to the new coefficient count, then store the
coefficients. -/
def ArxS.set_coeff_b (s : ArxS) (coefficients : List ℚ) : ArxS :=
  { s with
    inMem := s.inMem.take coefficients.length
      ++ List.replicate (coefficients.length - s.inMem.length) 0,
    coeffB := coefficients }

/-- Failure modes of the `PętlaUAR` mutation operations.  `nullChild` is the
`std::runtime_error` thrown by `check_ptr`, `indexOutOfRange` the
`std::range_error` thrown by `erase`; `undefinedBehaviour` marks
`std::next(m_loop.cbegin(), index)` past the end followed by
`std::vector::insert` with an invalid iterator, which the code does not
check. -/
inductive LoopErr where
  | nullChild
  | indexOutOfRange
  | undefinedBehaviour
deriving DecidableEq

/-- A child argument: `none` models a null `std::unique_ptr<ObiektSISO>`. -/
abbrev ChildPtr := Option Blk

/-- `PętlaUAR::check_ptr` (PętlaUAR.hpp lines 31-35). -/
def check_ptr : ChildPtr → Except LoopErr Unit
  | none => .error .nullChild
  | some _ => .ok ()

/-- `std::vector::insert` at a valid index (callers guard validity). -/
def insertIdxL : BlkList → Nat → Blk → BlkList
  | l, 0, b => .cons b l
  | .nil, _ + 1, b => .cons b .nil
  | .cons x l, i + 1, b => .cons x (insertIdxL l i b)

/-- `std::vector::erase` at a valid index (callers guard validity). -/
def eraseIdxL : BlkList → Nat → BlkList
  | .nil, _ => .nil
  | .cons _ l, 0 => l
  | .cons x l, i + 1 => .cons x (eraseIdxL l i)

namespace PetlaUAR

/-- `PętlaUAR::push_back` (PętlaUAR.hpp lines 121-125): reject a null
pointer, then append. -/
def push_back (l : BlkList) (element : ChildPtr) : Except LoopErr BlkList := do
  let _ ← check_ptr element
  match element with
  | some b => .ok (insertIdxL l (lenL l) b)
  | none => .error .nullChild

/-- `PętlaUAR::insert(index, value)` (PętlaUAR.hpp lines 138-144): reject a
null pointer, then insert at `index`.  The code performs no bounds check;
`index > size()` makes `std::next(m_loop.cbegin(), index)` an invalid
iterator and the insertion undefined behaviour. -/
def insertAt (l : BlkList) (index : Nat) (value : ChildPtr) :
    Except LoopErr BlkList := do
  let _ ← check_ptr value
  match value with
  | some b =>
    if index ≤ lenL l then .ok (insertIdxL l index b)
    else .error .undefinedBehaviour
  | none => .error .nullChild

/-- `PętlaUAR::insert(index, value, args...)` (PętlaUAR.hpp lines 151-160):
insert the blocks one after another; an exception from a later insertion
propagates after the earlier ones have already been inserted, so the pair
returned here carries the loop state reached when the error occurred. -/
def insertMany (l : BlkList) (index : Nat) :
    List ChildPtr → BlkList × Option LoopErr
  | [] => (l, none)
  | v :: vs =>
    match insertAt l index v with
    | .error e => (l, some e)
    | .ok l2 =>
      match vs with
      | [] => (l2, none)
      | _ :: _ => insertMany l2 (index + 1) vs

/-- `PętlaUAR::erase` (PętlaUAR.hpp lines 165-172): throw `std::range_error`
unless `index < size()`, then erase. -/
def erase (l : BlkList) (index : Nat) : Except LoopErr BlkList :=
  if lenL l ≤ index then .error .indexOutOfRange
  else .ok (eraseIdxL l index)

end PetlaUAR

/-- Signal generators involved in claim C3 (generators.hpp): the constant
base generator `GeneratorBaza` and the rectangular decorator
`GeneratorProstokat` wrapping an inner generator.  `amp` is `m_amplitude`,
`tStart`/`tEnd` the activity window, `period` is `m_period : uint32_t` and
`duty` is `m_duty_cycle`. -/
inductive Gen where
  | baza (amp : ℚ) (tStart tEnd : Int)
  | prostokat (inner : Gen) (amp : ℚ) (period : Nat) (duty : ℚ) (tStart tEnd : Int)
deriving DecidableEq

/-- `Generator::enabled_time` (generators.hpp lines 55-58). -/
def enabled_time (tStart tEnd t : Int) : Bool :=
  (tStart == 0 && tEnd == 0) || (t ≥ tStart && t ≤ tEnd)

/-- The C++ expression `time % m_period` with `time : int` and
`m_period : uint32_t`: usual arithmetic conversions convert `time` to
`uint32_t` (wrapping modulo `2^32`) before the remainder. -/
def uintMod (t : Int) (period : Nat) : Nat := (t % (2^32 : Int)).toNat % period

/-- `Generator::symuluj` dispatched over the two modelled generator classes.
`GeneratorBaza::symuluj` (generators.hpp line 277) yields the amplitude
during activity, `GeneratorDecor::symuluj` (line 240) adds
`simulate_internal` to the inner generator's output, and
`GeneratorProstokat::simulate_internal` (lines 416-420) yields the amplitude
iff the generator is active and `(time % m_period) < m_duty_cycle *
m_period`. -/
def genSym : Gen → Int → ℚ
  | .baza amp ts te, t => if enabled_time ts te t then amp else 0
  | .prostokat inner amp period duty ts te, t =>
    genSym inner t
      + (if enabled_time ts te t && decide ((uintMod t period : ℚ) < duty * period)
         then amp else 0)

/-- Observation of an IEEE-754 `double` through the three functions the
parameter validation uses: `std::signbit` (`sgn`), `std::isfinite` (`fin`)
and its magnitude as a real value (`mag`).  Negative zero is
`⟨true, true, 0⟩`: sign bit set, finite, zero magnitude. -/
structure FP where
  sgn : Bool
  fin : Bool
  mag : ℚ
deriving DecidableEq

/-- The numeric value represented by an `FP` observation. -/
def FP.val (x : FP) : ℚ := if x.sgn then -x.mag else x.mag

/-- The IEEE-754 double `-0.0`. -/
def negZeroFP : FP := ⟨true, true, 0⟩

/-- util.hpp `is_bad_or_neg` (line 97):
`std::signbit(x) || !std::isfinite(x)`. -/
def is_bad_or_neg (x : FP) : Bool := x.sgn || !x.fin

/-- `RegulatorPID` parameters as stored by the constructor. -/
structure PidParams where
  k : FP
  ti : FP
  td : FP
deriving DecidableEq

/-- The `RegulatorPID(k, ti, td)` constructor (RegulatorPID.h lines 103-109):
store the parameters, then `check_constraints` (lines 32-36) throws if
`is_bad_or_neg` holds for any of them. -/
def RegulatorPID_mk (k ti td : FP) : Option PidParams :=
  if is_bad_or_neg k || is_bad_or_neg ti || is_bad_or_neg td then none
  else some ⟨k, ti, td⟩

/-- `RegulatorPID::set_k` (RegulatorPID.h lines 118-122): `throw_bad_neg(k)`
then assign. -/
def RegulatorPID.set_k (r : PidParams) (k : FP) : Option PidParams :=
  if is_bad_or_neg k then none else some { r with k := k }

/-- `RegulatorPID::set_ti` (RegulatorPID.h lines 125-129). -/
def RegulatorPID.set_ti (r : PidParams) (ti : FP) : Option PidParams :=
  if is_bad_or_neg ti then none else some { r with ti := ti }

/-- `RegulatorPID::set_td` (RegulatorPID.h lines 132-136). -/
def RegulatorPID.set_td (r : PidParams) (td : FP) : Option PidParams :=
  if is_bad_or_neg td then none else some { r with td := td }

/-- Append a block (`std::vector::push_back`). -/
def appendL : BlkList → Blk → BlkList
  | .nil, b => .cons b .nil
  | .cons x l, b => .cons x (appendL l b)

@[simp] theorem takeU8_enc (v : Nat) (r : List UB) :
    takeU8 (u8Enc v ++ r) = some (v % 2^8, r) := rfl

@[simp] theorem takeU32_enc (v : Nat) (r : List UB) :
    takeU32 (u32Enc v ++ r) = some (v % 2^32, r) := rfl

@[simp] theorem takeU64_enc (v : Nat) (r : List UB) :
    takeU64 (u64Enc v ++ r) = some (v % 2^64, r) := rfl

@[simp] theorem takeF64_enc (x : ℚ) (r : List UB) :
    takeF64 (f64Enc x ++ r) = some (x, r) := rfl

@[simp] theorem readU32Val_enc (v : Nat) (r : List UB) :
    readU32Val (u32Enc v ++ r) = some (v % 2^32) := rfl

@[simp] theorem u8Enc_length (v : Nat) : (u8Enc v).length = 1 := rfl
@[simp] theorem u32Enc_length (v : Nat) : (u32Enc v).length = 4 := rfl
@[simp] theorem u64Enc_length (v : Nat) : (u64Enc v).length = 8 := rfl
@[simp] theorem f64Enc_length (x : ℚ) : (f64Enc x).length = 8 := rfl
@[simp] theorem tagARX_length : tagARX.length = 4 := rfl
@[simp] theorem tagPID_length : tagPID.length = 4 := rfl
@[simp] theorem tagStat_length : tagStat.length = 4 := rfl
@[simp] theorem tagUAR_length : tagUAR.length = 3 := rfl

@[simp] theorem f64List_length (l : List ℚ) : (f64List l).length = 8 * l.length := by
  induction l with
  | nil => rfl
  | cons x xs ih => simp [f64List, List.map_cons, List.flatten] at ih ⊢; omega

@[simp] theorem drop4_u32 (v : Nat) (l : List UB) : (u32Enc v ++ l).drop 4 = l := rfl

@[simp] theorem drop8_tagARX (v : Nat) (l : List UB) :
    (u32Enc v ++ (tagARX ++ l)).drop 8 = l := rfl
@[simp] theorem drop8_tagPID (v : Nat) (l : List UB) :
    (u32Enc v ++ (tagPID ++ l)).drop 8 = l := rfl
@[simp] theorem drop8_tagStat (v : Nat) (l : List UB) :
    (u32Enc v ++ (tagStat ++ l)).drop 8 = l := rfl
@[simp] theorem drop7_tagUAR (v : Nat) (l : List UB) :
    (u32Enc v ++ (tagUAR ++ l)).drop 7 = l := rfl
@[simp] theorem drop8_tagUAR (v c : Nat) (l : List UB) :
    (u32Enc v ++ (tagUAR ++ (u8Enc c ++ l))).drop 8 = l := rfl
@[simp] theorem drop16_tagUAR (v c : Nat) (p : ℚ) (l : List UB) :
    (u32Enc v ++ (tagUAR ++ (u8Enc c ++ (f64Enc p ++ l)))).drop 16 = l := rfl
@[simp] theorem drop24_tagUAR (v c n : Nat) (p : ℚ) (l : List UB) :
    (u32Enc v ++ (tagUAR ++ (u8Enc c ++ (f64Enc p ++ (u64Enc n ++ l))))).drop 24 = l := rfl

@[simp] theorem tm_ARX_ARX (r : List UB) : tagMatch tagARX (tagARX ++ r) = true := rfl
@[simp] theorem tm_ARX_PID (r : List UB) : tagMatch tagARX (tagPID ++ r) = false := rfl
@[simp] theorem tm_ARX_Stat (r : List UB) : tagMatch tagARX (tagStat ++ r) = false := rfl
@[simp] theorem tm_ARX_UAR (r : List UB) : tagMatch tagARX (tagUAR ++ r) = false := rfl
@[simp] theorem tm_PID_ARX (r : List UB) : tagMatch tagPID (tagARX ++ r) = false := rfl
@[simp] theorem tm_PID_PID (r : List UB) : tagMatch tagPID (tagPID ++ r) = true := rfl
@[simp] theorem tm_PID_Stat (r : List UB) : tagMatch tagPID (tagStat ++ r) = false := rfl
@[simp] theorem tm_PID_UAR (r : List UB) : tagMatch tagPID (tagUAR ++ r) = false := rfl
@[simp] theorem tm_Stat_ARX (r : List UB) : tagMatch tagStat (tagARX ++ r) = false := rfl
@[simp] theorem tm_Stat_PID (r : List UB) : tagMatch tagStat (tagPID ++ r) = false := rfl
@[simp] theorem tm_Stat_Stat (r : List UB) : tagMatch tagStat (tagStat ++ r) = true := rfl
@[simp] theorem tm_Stat_UAR (r : List UB) : tagMatch tagStat (tagUAR ++ r) = false := rfl
@[simp] theorem tm_UAR_ARX (r : List UB) : tagMatch tagUAR (tagARX ++ r) = false := rfl
@[simp] theorem tm_UAR_PID (r : List UB) : tagMatch tagUAR (tagPID ++ r) = false := rfl
@[simp] theorem tm_UAR_Stat (r : List UB) : tagMatch tagUAR (tagStat ++ r) = false := rfl
@[simp] theorem tm_UAR_UAR (r : List UB) : tagMatch tagUAR (tagUAR ++ r) = true := rfl

theorem dumpStat_shape (s : StatS) (extra : List UB) :
    dumpStat s ++ extra
      = u32Enc 36 ++ (tagStat ++ (f64Enc s.maxV ++ (f64Enc s.minV
          ++ (f64Enc s.a ++ (f64Enc s.b ++ extra))))) := by
  simp [dumpStat]

theorem parseStat_dump (s : StatS) (extra : List UB) :
    parseStat (dumpStat s ++ extra) = some (.stat s) := by
  rw [dumpStat_shape]
  rw [parseStat]
  rw [if_neg (by simp [u32Enc, tagStat, f64Enc])]
  simp

theorem dumpPID_shape (s : PidS) (extra : List UB) :
    dumpPID s ++ extra
      = u32Enc 44 ++ (tagPID ++ (f64Enc s.k ++ (f64Enc s.ti ++ (f64Enc s.td
          ++ (f64Enc s.integral ++ (f64Enc s.prevE ++ extra)))))) := by
  simp [dumpPID]

theorem parsePID_dump (s : PidS) (extra : List UB)
    (hk : ¬s.k < 0) (hti : ¬s.ti < 0) (htd : ¬s.td < 0) :
    parsePID (dumpPID s ++ extra) = some (.pid s) := by
  rw [dumpPID_shape]
  rw [parsePID]
  rw [if_neg (by simp [u32Enc, tagPID, f64Enc])]
  simp [is_bad_or_negQ, hk, hti, htd]

@[simp] theorem f64List_nil : f64List [] = [] := rfl

@[simp] theorem f64List_cons (x : ℚ) (xs : List ℚ) :
    f64List (x :: xs) = f64Enc x ++ f64List xs := by
  simp [f64List]

theorem takeVec_encList (l : List ℚ) (r : List UB) :
    takeVec l.length (f64List l ++ r) = some (l, r) := by
  induction l generalizing r with
  | nil => rfl
  | cons x xs ih => simp [takeVec, ih]

theorem takeRaw_enc (a b iN oN dN sd ng : Nat) (m sdv : ℚ) (rest : List UB) :
    takeRaw (u64Enc a ++ (u64Enc b ++ (f64Enc m ++ (f64Enc sdv ++ (u64Enc iN
        ++ (u64Enc oN ++ (u64Enc dN ++ (u64Enc sd ++ (u64Enc ng ++ rest)))))))))
      = some (⟨a % 2^64, b % 2^64, m, sdv, iN % 2^64, oN % 2^64, dN % 2^64,
              sd % 2^64, ng % 2^64⟩, rest) := rfl

theorem dumpARX_shape (s : ArxS) (extra : List UB) :
    dumpARX s ++ extra
      = u32Enc ((s.coeffA.length + s.coeffB.length + s.inMem.length
            + s.outMem.length + s.delayMem.length) * 8 + 72 + 4)
        ++ (tagARX ++ (u64Enc s.coeffA.length ++ (u64Enc s.coeffB.length
        ++ (f64Enc s.mean ++ (f64Enc s.stddev ++ (u64Enc s.inMem.length
        ++ (u64Enc s.outMem.length ++ (u64Enc s.delayMem.length
        ++ (u64Enc s.seed ++ (u64Enc s.nGen ++ (f64List s.coeffA
        ++ (f64List s.coeffB ++ (f64List s.inMem ++ (f64List s.outMem
        ++ (f64List s.delayMem ++ extra))))))))))))))) := by
  simp [dumpARX]

theorem parseARX_dump (s : ArxS)
    (hdelay : s.delay = s.delayMem.length)
    (hsmall : (s.coeffA.length + s.coeffB.length + s.inMem.length
        + s.outMem.length + s.delayMem.length) * 8 + 76 < 2^32)
    (hseed : s.seed < 2^64) (hgen : s.nGen < 2^64) :
    parseARX (dumpARX s) = some (.arx s) := by
  have hA : s.coeffA.length % 2^64 = s.coeffA.length := Nat.mod_eq_of_lt (by omega)
  have hB : s.coeffB.length % 2^64 = s.coeffB.length := Nat.mod_eq_of_lt (by omega)
  have hI : s.inMem.length % 2^64 = s.inMem.length := Nat.mod_eq_of_lt (by omega)
  have hO : s.outMem.length % 2^64 = s.outMem.length := Nat.mod_eq_of_lt (by omega)
  have hD : s.delayMem.length % 2^64 = s.delayMem.length := Nat.mod_eq_of_lt (by omega)
  have hD32 : s.delayMem.length % 2^32 = s.delayMem.length := Nat.mod_eq_of_lt (by omega)
  have hS : s.seed % 2^64 = s.seed := Nat.mod_eq_of_lt hseed
  have hG : s.nGen % 2^64 = s.nGen := Nat.mod_eq_of_lt hgen
  have hshape := dumpARX_shape s []
  rw [List.append_nil] at hshape
  rw [hshape]
  rw [parseARX]
  rw [if_neg (by simp [u32Enc, tagARX, u64Enc, f64Enc])]
  rw [if_neg (by simp)]
  rw [drop8_tagARX, takeRaw_enc]
  simp only [hA, hB, hI, hO, hD, hS, hG]
  rw [if_neg (by simp [u32Enc, tagARX, u64Enc, f64Enc]; omega)]
  simp only [takeVec_encList, Option.bind_eq_bind, Option.some_bind, Option.pure_def]
  rw [hD32, ← hdelay]

@[simp] theorem dumpStat_length (s : StatS) : (dumpStat s).length = 40 := by
  simp [dumpStat]

@[simp] theorem dumpPID_length (s : PidS) : (dumpPID s).length = 48 := by
  simp [dumpPID]

theorem dumpARX_length (s : ArxS) :
    (dumpARX s).length
      = (s.coeffA.length + s.coeffB.length + s.inMem.length + s.outMem.length
          + s.delayMem.length) * 8 + 80 := by
  simp [dumpARX]; omega

theorem dumpLoop_shape (closed : Bool) (prev : ℚ) (cs : BlkList) (extra : List UB) :
    dumpB (.loop closed prev cs) ++ extra
      = u32Enc (20 + (dumpL cs).length) ++ (tagUAR ++ (u8Enc (if closed then 1 else 0)
          ++ (f64Enc prev ++ (u64Enc (lenL cs) ++ (dumpL cs ++ extra))))) := by
  simp [dumpB]

theorem dumpLoop_length (closed : Bool) (prev : ℚ) (cs : BlkList) :
    (dumpB (.loop closed prev cs)).length = 24 + (dumpL cs).length := by
  have h := dumpLoop_shape closed prev cs []
  rw [List.append_nil] at h
  rw [h]
  simp [u8Enc] <;> omega

theorem dumpB_ge24 (b : Blk) : 24 ≤ (dumpB b).length := by
  cases b with
  | stat s => simp [dumpB]
  | pid s => simp [dumpB]
  | arx s => simp [dumpB, dumpARX_length]
  | loop closed prev cs => rw [dumpLoop_length]; omega

theorem lenL_le_dumpL : (cs : BlkList) → lenL cs ≤ (dumpL cs).length
  | .nil => by simp [lenL, dumpL]
  | .cons c l => by
    have hc := dumpB_ge24 c
    have ih := lenL_le_dumpL l
    simp only [lenL, dumpL, List.length_append]
    omega

theorem wfB_arx_iff (s : ArxS) :
    wfB (.arx s) = true
      ↔ s.delay = s.delayMem.length
        ∧ (s.coeffA.length + s.coeffB.length + s.inMem.length + s.outMem.length
            + s.delayMem.length) * 8 + 76 < 2^32
        ∧ s.seed < 2^64 ∧ s.nGen < 2^64 := by
  simp [wfB, and_assoc]

theorem wfB_pid_iff (s : PidS) :
    wfB (.pid s) = true ↔ 0 ≤ s.k ∧ 0 ≤ s.ti ∧ 0 ≤ s.td := by
  simp [wfB, is_bad_or_negQ, and_assoc]

theorem wfB_loop_iff (closed : Bool) (prev : ℚ) (cs : BlkList) :
    wfB (.loop closed prev cs) = true
      ↔ wfL cs = true ∧ (dumpL cs).length + 20 < 2^32 := by
  simp [wfB]

theorem readU32Val_dumpB (b : Blk) (r : List UB) (hwf : wfB b = true) :
    readU32Val (dumpB b ++ r) = some ((dumpB b).length - 4) := by
  cases b with
  | stat s =>
    show readU32Val (dumpStat s ++ r) = some ((dumpStat s).length - 4)
    rw [dumpStat_shape, readU32Val_enc, dumpStat_length]
    norm_num
  | pid s =>
    show readU32Val (dumpPID s ++ r) = some ((dumpPID s).length - 4)
    rw [dumpPID_shape, readU32Val_enc, dumpPID_length]
    norm_num
  | arx s =>
    obtain ⟨-, hsmall, -, -⟩ := (wfB_arx_iff s).mp hwf
    show readU32Val (dumpARX s ++ r) = some ((dumpARX s).length - 4)
    rw [dumpARX_shape, readU32Val_enc, dumpARX_length]
    congr 1
    rw [Nat.mod_eq_of_lt (by omega)]
    omega
  | loop closed prev cs =>
    obtain ⟨-, hsmall⟩ := (wfB_loop_iff closed prev cs).mp hwf
    rw [dumpLoop_shape, readU32Val_enc, dumpLoop_length]
    congr 1
    rw [Nat.mod_eq_of_lt (by omega)]
    omega

theorem closedByte (closed : Bool) :
    decide (0 < (if closed then 1 else 0) % 2^8) = closed := by
  cases closed <;> rfl

theorem parseStat_dump0 (s : StatS) : parseStat (dumpStat s) = some (.stat s) := by
  have h := parseStat_dump s []
  rwa [List.append_nil] at h

theorem parsePID_dump0 (s : PidS) (hk : ¬s.k < 0) (hti : ¬s.ti < 0) (htd : ¬s.td < 0) :
    parsePID (dumpPID s) = some (.pid s) := by
  have h := parsePID_dump s [] hk hti htd
  rwa [List.append_nil] at h

theorem dumpStat_shape0 (s : StatS) :
    dumpStat s
      = u32Enc 36 ++ (tagStat ++ (f64Enc s.maxV ++ (f64Enc s.minV
          ++ (f64Enc s.a ++ f64Enc s.b)))) := by
  simp [dumpStat]

theorem dumpPID_shape0 (s : PidS) :
    dumpPID s
      = u32Enc 44 ++ (tagPID ++ (f64Enc s.k ++ (f64Enc s.ti ++ (f64Enc s.td
          ++ (f64Enc s.integral ++ f64Enc s.prevE))))) := by
  simp [dumpPID]

theorem dumpARX_shape0 (s : ArxS) :
    dumpARX s
      = u32Enc ((s.coeffA.length + s.coeffB.length + s.inMem.length
            + s.outMem.length + s.delayMem.length) * 8 + 72 + 4)
        ++ (tagARX ++ (u64Enc s.coeffA.length ++ (u64Enc s.coeffB.length
        ++ (f64Enc s.mean ++ (f64Enc s.stddev ++ (u64Enc s.inMem.length
        ++ (u64Enc s.outMem.length ++ (u64Enc s.delayMem.length
        ++ (u64Enc s.seed ++ (u64Enc s.nGen ++ (f64List s.coeffA
        ++ (f64List s.coeffB ++ (f64List s.inMem ++ (f64List s.outMem
        ++ f64List s.delayMem)))))))))))))) := by
  simp [dumpARX]

theorem dumpLoop_shape0 (closed : Bool) (prev : ℚ) (cs : BlkList) :
    dumpB (.loop closed prev cs)
      = u32Enc (20 + (dumpL cs).length) ++ (tagUAR ++ (u8Enc (if closed then 1 else 0)
          ++ (f64Enc prev ++ (u64Enc (lenL cs) ++ dumpL cs)))) := by
  simp [dumpB]

theorem parseChildren_dumpL (M : Nat)
    (ih : ∀ c : Blk, (dumpB c).length ≤ M → wfB c = true → deserialize (dumpB c) = some c) :
    (cs : BlkList) → wfL cs = true → (dumpL cs).length ≤ M →
      parseChildren (lenL cs) (dumpL cs) = some cs
  | .nil, _, _ => by
    rw [lenL, dumpL, parseChildren]
  | .cons c l, hwf, hlen => by
    have hwfc : wfB c = true := by
      have h := hwf
      rw [wfL] at h
      exact (Bool.and_eq_true _ _).mp h |>.1
    have hwfl : wfL l = true := by
      have h := hwf
      rw [wfL] at h
      exact (Bool.and_eq_true _ _).mp h |>.2
    have hc24 := dumpB_ge24 c
    have hlens : (dumpL (.cons c l)).length = (dumpB c).length + (dumpL l).length := by
      rw [dumpL]; simp
    rw [lenL, dumpL, parseChildren]
    rw [dif_neg (by simp only [List.length_append]; omega)]
    have h4 : (dumpB c).length - 4 + 4 = (dumpB c).length := by omega
    have h4' : 4 + ((dumpB c).length - 4) = (dumpB c).length := by omega
    simp only [readU32Val_dumpB c (dumpL l) hwfc, h4, h4', List.take_left' rfl,
      List.drop_left' rfl, ih c (by rw [dumpL] at hlen; simp at hlen; omega) hwfc,
      parseChildren_dumpL M ih l hwfl (by rw [dumpL] at hlen; simp at hlen; omega)]

theorem deserialize_dumpB (N : Nat) :
    ∀ b : Blk, (dumpB b).length ≤ N → wfB b = true → deserialize (dumpB b) = some b := by
  induction N with
  | zero =>
    intro b hlen _
    have := dumpB_ge24 b
    omega
  | succ n ihN =>
    intro b hlen hwf
    cases b with
    | stat s =>
      show deserialize (dumpStat s) = some (.stat s)
      rw [deserialize, dumpStat_shape0]
      simp only [drop4_u32, tm_ARX_Stat, tm_PID_Stat, tm_Stat_Stat, Bool.false_eq_true,
        if_false, if_true]
      rw [← dumpStat_shape0]
      exact parseStat_dump0 s
    | pid s =>
      obtain ⟨hk, hti, htd⟩ := (wfB_pid_iff s).mp hwf
      show deserialize (dumpPID s) = some (.pid s)
      rw [deserialize, dumpPID_shape0]
      simp only [drop4_u32, tm_ARX_PID, tm_PID_PID, Bool.false_eq_true, if_false, if_true]
      rw [← dumpPID_shape0]
      exact parsePID_dump0 s (not_lt.mpr hk) (not_lt.mpr hti) (not_lt.mpr htd)
    | arx s =>
      obtain ⟨hdelay, hsmall, hseed, hgen⟩ := (wfB_arx_iff s).mp hwf
      show deserialize (dumpARX s) = some (.arx s)
      rw [deserialize, dumpARX_shape0]
      simp only [drop4_u32, tm_ARX_ARX, if_true]
      rw [← dumpARX_shape0]
      exact parseARX_dump s hdelay hsmall hseed hgen
    | loop closed prev cs =>
      obtain ⟨hwfl, hsmall⟩ := (wfB_loop_iff closed prev cs).mp hwf
      have hL := dumpLoop_length closed prev cs
      have hcnt : lenL cs ≤ (dumpL cs).length := lenL_le_dumpL cs
      rw [deserialize, dumpLoop_shape0]
      simp only [drop4_u32, tm_ARX_UAR, tm_PID_UAR, tm_Stat_UAR, tm_UAR_UAR,
        Bool.false_eq_true, if_false, if_true]
      rw [dif_neg (by simp [u8Enc]; omega)]
      simp only [readU32Val_enc,
        Nat.mod_eq_of_lt (show 20 + (dumpL cs).length < 2^32 by omega)]
      have hshlen : (u32Enc (20 + (dumpL cs).length) ++ (tagUAR
          ++ (u8Enc (if closed then 1 else 0) ++ (f64Enc prev
          ++ (u64Enc (lenL cs) ++ dumpL cs))))).length = 24 + (dumpL cs).length := by
        simp [u8Enc] <;> omega
      rw [hshlen]
      rw [if_neg (show ¬(24 + (dumpL cs).length < 20 + (dumpL cs).length + 4) by omega)]
      simp only [drop7_tagUAR, drop8_tagUAR, drop16_tagUAR, drop24_tagUAR,
        takeU8_enc, takeF64_enc, takeU64_enc,
        Nat.mod_eq_of_lt (show lenL cs < 2^64 by omega),
        parseChildren_dumpL n (fun c hc wc => ihN c hc wc) cs hwfl
          (by rw [dumpLoop_length] at hlen; omega),
        closedByte]

/-- Claim C1: for every block of the four SISO types (StaticFn, PID, ARX,
Loop) in a reachable state `b`, `ObiektSISO::deserialize (b.dump())` succeeds
and yields an object structurally equal to `b`, and any subsequent sequence
of `symuluj` calls with the same inputs on the original and the restored
instance produces identical outputs. -/
theorem C1_roundtrip (b : Blk) (hwf : wfB b = true) :
    deserialize (dumpB b) = some b
      ∧ ∀ (b2 : Blk) (us : List ℚ), deserialize (dumpB b) = some b2 →
          simOutputs b2 us = simOutputs b us := by
  have h := deserialize_dumpB (dumpB b).length b le_rfl hwf
  exact ⟨h, fun b2 us h2 => by rw [h] at h2; cases h2; rfl⟩

/-- Concrete nested loop used to witness C1: a closed loop holding a PID, a
static block, an ARX model and an open inner loop. -/
def c1WitnessBlk : Blk :=
  .loop true 7
    (.cons (.pid ⟨1, 2, 3, 0, 0⟩)
      (.cons (.stat ⟨1, -1, 1, 0⟩)
        (.cons (.arx ⟨[1], [2], 1, 0, 0, [0], [0], [0], 5, 0⟩)
          (.cons (.loop false 0 (.cons (.pid ⟨1, 0, 0, 0, 0⟩) .nil)) .nil))))

set_option maxRecDepth 4000 in
/-- Witness for C1 at a concrete nested loop. -/
theorem C1_roundtrip_witness :
    wfB c1WitnessBlk = true
      ∧ deserialize (dumpB c1WitnessBlk) = some c1WitnessBlk :=
  ⟨by decide, (C1_roundtrip c1WitnessBlk (by decide)).1⟩

theorem parsePID_dropLast (s : PidS) : parsePID ((dumpPID s).dropLast) = none := by
  rw [parsePID, if_pos (by simp)]

theorem parseStat_dropLast (s : StatS) : parseStat ((dumpStat s).dropLast) = none := by
  rw [parseStat, if_pos (by simp)]

theorem dumpARX_split (s : ArxS) :
    dumpARX s
      = (u32Enc ((s.coeffA.length + s.coeffB.length + s.inMem.length
            + s.outMem.length + s.delayMem.length) * 8 + 72 + 4)
          ++ (tagARX ++ (u64Enc s.coeffA.length ++ (u64Enc s.coeffB.length
          ++ (f64Enc s.mean ++ (f64Enc s.stddev ++ (u64Enc s.inMem.length
          ++ (u64Enc s.outMem.length ++ (u64Enc s.delayMem.length
          ++ (u64Enc s.seed ++ u64Enc s.nGen))))))))))
        ++ (f64List s.coeffA ++ (f64List s.coeffB ++ (f64List s.inMem
            ++ (f64List s.outMem ++ f64List s.delayMem)))) := by
  simp [dumpARX]

theorem parseARX_dropLast (s : ArxS) : parseARX ((dumpARX s).dropLast) = none := by
  by_cases hk : s.coeffA.length + s.coeffB.length + s.inMem.length
      + s.outMem.length + s.delayMem.length = 0
  · rw [parseARX, if_pos]
    rw [List.length_dropLast, dumpARX_length]
    omega
  · have hVlen : (f64List s.coeffA ++ (f64List s.coeffB ++ (f64List s.inMem
        ++ (f64List s.outMem ++ f64List s.delayMem)))).length
          = 8 * (s.coeffA.length + s.coeffB.length + s.inMem.length
              + s.outMem.length + s.delayMem.length) := by
      simp
      omega
    have hVne : f64List s.coeffA ++ (f64List s.coeffB ++ (f64List s.inMem
        ++ (f64List s.outMem ++ f64List s.delayMem))) ≠ [] := by
      intro h
      rw [h] at hVlen
      simp only [List.length_nil] at hVlen
      omega
    rw [dumpARX_split, List.dropLast_append_of_ne_nil _ hVne]
    rw [parseARX]
    rw [if_neg (by
      simp only [List.length_append, List.length_dropLast, hVlen, u32Enc_length,
        tagARX_length, u64Enc_length, f64Enc_length]
      omega)]
    rw [if_neg (by simp [List.append_assoc])]
    have hassoc : (u32Enc ((s.coeffA.length + s.coeffB.length + s.inMem.length
          + s.outMem.length + s.delayMem.length) * 8 + 72 + 4)
        ++ (tagARX ++ (u64Enc s.coeffA.length ++ (u64Enc s.coeffB.length
        ++ (f64Enc s.mean ++ (f64Enc s.stddev ++ (u64Enc s.inMem.length
        ++ (u64Enc s.outMem.length ++ (u64Enc s.delayMem.length
        ++ (u64Enc s.seed ++ u64Enc s.nGen))))))))))
        ++ (f64List s.coeffA ++ (f64List s.coeffB ++ (f64List s.inMem
            ++ (f64List s.outMem ++ f64List s.delayMem)))).dropLast
      = u32Enc ((s.coeffA.length + s.coeffB.length + s.inMem.length
            + s.outMem.length + s.delayMem.length) * 8 + 72 + 4)
        ++ (tagARX ++ (u64Enc s.coeffA.length ++ (u64Enc s.coeffB.length
        ++ (f64Enc s.mean ++ (f64Enc s.stddev ++ (u64Enc s.inMem.length
        ++ (u64Enc s.outMem.length ++ (u64Enc s.delayMem.length
        ++ (u64Enc s.seed ++ (u64Enc s.nGen
        ++ (f64List s.coeffA ++ (f64List s.coeffB ++ (f64List s.inMem
            ++ (f64List s.outMem ++ f64List s.delayMem)))).dropLast)))))))))) := by
      simp [List.append_assoc]
    rw [show List.drop 8 ((u32Enc ((s.coeffA.length + s.coeffB.length + s.inMem.length
          + s.outMem.length + s.delayMem.length) * 8 + 72 + 4)
        ++ (tagARX ++ (u64Enc s.coeffA.length ++ (u64Enc s.coeffB.length
        ++ (f64Enc s.mean ++ (f64Enc s.stddev ++ (u64Enc s.inMem.length
        ++ (u64Enc s.outMem.length ++ (u64Enc s.delayMem.length
        ++ (u64Enc s.seed ++ u64Enc s.nGen))))))))))
        ++ (f64List s.coeffA ++ (f64List s.coeffB ++ (f64List s.inMem
            ++ (f64List s.outMem ++ f64List s.delayMem)))).dropLast)
      = u64Enc s.coeffA.length ++ (u64Enc s.coeffB.length
        ++ (f64Enc s.mean ++ (f64Enc s.stddev ++ (u64Enc s.inMem.length
        ++ (u64Enc s.outMem.length ++ (u64Enc s.delayMem.length
        ++ (u64Enc s.seed ++ (u64Enc s.nGen
        ++ (f64List s.coeffA ++ (f64List s.coeffB ++ (f64List s.inMem
            ++ (f64List s.outMem ++ f64List s.delayMem)))).dropLast))))))))
      from by rw [hassoc]; rfl]
    simp only [takeRaw_enc]
    rw [if_pos (by
      simp only [List.length_append, List.length_dropLast, hVlen, u32Enc_length,
        tagARX_length, u64Enc_length, f64Enc_length]
      omega)]

theorem dumpLoop_split (closed : Bool) (prev : ℚ) (cs : BlkList) :
    dumpB (.loop closed prev cs)
      = (u32Enc (20 + (dumpL cs).length) ++ (tagUAR ++ (u8Enc (if closed then 1 else 0)
          ++ (f64Enc prev ++ u64Enc (lenL cs))))) ++ dumpL cs := by
  simp [dumpB]

theorem deserialize_loop_dropLast (closed : Bool) (prev : ℚ) (cs : BlkList)
    (hwf : wfB (.loop closed prev cs) = true) :
    deserialize ((dumpB (.loop closed prev cs)).dropLast) = none := by
  obtain ⟨-, hsmall⟩ := (wfB_loop_iff closed prev cs).mp hwf
  by_cases hE : dumpL cs = []
  · rw [dumpLoop_split, hE, List.append_nil]
    have hsh : ∀ (v c n : Nat) (p : ℚ),
        ((u32Enc v ++ (tagUAR ++ (u8Enc c ++ (f64Enc p ++ u64Enc n))))).dropLast
          = u32Enc v ++ (tagUAR ++ (u8Enc c ++ (f64Enc p ++ (u64Enc n).dropLast))) := by
      intro v c n p
      simp [u64Enc]
    rw [hsh]
    rw [deserialize]
    simp only [drop4_u32, tm_ARX_UAR, tm_PID_UAR, tm_Stat_UAR, tm_UAR_UAR,
      Bool.false_eq_true, if_false, if_true]
    rw [dif_pos (by simp [u8Enc, u64Enc])]
  · have hpos : 0 < (dumpL cs).length := List.length_pos.mpr hE
    rw [dumpLoop_split, List.dropLast_append_of_ne_nil _ hE]
    have hsh : (u32Enc (20 + (dumpL cs).length) ++ (tagUAR
        ++ (u8Enc (if closed then 1 else 0) ++ (f64Enc prev
        ++ u64Enc (lenL cs))))) ++ (dumpL cs).dropLast
      = u32Enc (20 + (dumpL cs).length) ++ (tagUAR
        ++ (u8Enc (if closed then 1 else 0) ++ (f64Enc prev
        ++ (u64Enc (lenL cs) ++ (dumpL cs).dropLast)))) := by
      simp [List.append_assoc]
    rw [hsh]
    rw [deserialize]
    simp only [drop4_u32, tm_ARX_UAR, tm_PID_UAR, tm_Stat_UAR, tm_UAR_UAR,
      Bool.false_eq_true, if_false, if_true]
    rw [dif_neg (by simp [u8Enc]; omega)]
    simp only [readU32Val_enc,
      Nat.mod_eq_of_lt (show 20 + (dumpL cs).length < 2^32 by omega)]
    have hblen : (u32Enc (20 + (dumpL cs).length) ++ (tagUAR
        ++ (u8Enc (if closed then 1 else 0) ++ (f64Enc prev
        ++ (u64Enc (lenL cs) ++ (dumpL cs).dropLast))))).length
      = 23 + (dumpL cs).length := by
      simp [u8Enc]
      omega
    rw [hblen]
    rw [if_pos (show 23 + (dumpL cs).length < 20 + (dumpL cs).length + 4 by omega)]

theorem parseARX_extra (s : ArxS) (extra : List UB) (hne : extra ≠ []) :
    parseARX (dumpARX s ++ extra) = none := by
  have hpos : 0 < extra.length := List.length_pos.mpr hne
  rw [dumpARX_shape]
  rw [parseARX]
  rw [if_neg (by simp [u32Enc, tagARX, u64Enc, f64Enc])]
  rw [if_neg (by simp)]
  simp only [drop8_tagARX, takeRaw_enc]
  rw [if_pos (by
    simp only [List.length_append, u32Enc_length, tagARX_length, u64Enc_length,
      f64Enc_length, f64List_length]
    omega)]

/-- Claim C6: for every block type and every reachable state, reconstructing
from the dump with the single trailing byte removed fails (the size checks of
the typed deserializing constructors reject the truncated buffer); it never
parses successfully. -/
theorem C6_truncation :
    (∀ s : PidS, parsePID ((dumpPID s).dropLast) = none)
    ∧ (∀ s : StatS, parseStat ((dumpStat s).dropLast) = none)
    ∧ (∀ s : ArxS, parseARX ((dumpARX s).dropLast) = none)
    ∧ (∀ (closed : Bool) (prev : ℚ) (cs : BlkList),
        wfB (.loop closed prev cs) = true →
          deserialize ((dumpB (.loop closed prev cs)).dropLast) = none) :=
  ⟨parsePID_dropLast, parseStat_dropLast, parseARX_dropLast, deserialize_loop_dropLast⟩

/-- Witness for C6 at concrete blocks of all four types. -/
theorem C6_truncation_witness :
    parsePID ((dumpPID ⟨1, 2, 3, 0, 0⟩).dropLast) = none
    ∧ parseStat ((dumpStat ⟨1, -1, 1, 0⟩).dropLast) = none
    ∧ parseARX ((dumpARX ⟨[1], [2], 1, 0, 0, [0], [0], [0], 5, 0⟩).dropLast) = none
    ∧ wfB (.loop true 0 (.cons (.stat ⟨1, -1, 1, 0⟩) .nil)) = true
    ∧ deserialize ((dumpB (.loop true 0
        (.cons (.stat ⟨1, -1, 1, 0⟩) .nil))).dropLast) = none :=
  ⟨C6_truncation.1 _, C6_truncation.2.1 _, C6_truncation.2.2.1 _, by decide,
    C6_truncation.2.2.2 true 0 (.cons (.stat ⟨1, -1, 1, 0⟩) .nil) (by decide)⟩

/-- Claim C10: the RegulatorPID and ObiektStatyczny deserializing
constructors only require the buffer to be at least the expected fixed size:
appending arbitrary trailing bytes to a valid record still parses into the
same object, while ModelARX rejects any buffer whose length differs from the
size declared in its header. -/
theorem C10_trailing_bytes :
    (∀ (s : PidS) (extra : List UB), 0 ≤ s.k → 0 ≤ s.ti → 0 ≤ s.td →
        parsePID (dumpPID s ++ extra) = some (.pid s))
    ∧ (∀ (s : StatS) (extra : List UB), parseStat (dumpStat s ++ extra) = some (.stat s))
    ∧ (∀ (s : ArxS) (extra : List UB), extra ≠ [] →
        parseARX (dumpARX s ++ extra) = none) :=
  ⟨fun s extra hk hti htd =>
      parsePID_dump s extra (not_lt.mpr hk) (not_lt.mpr hti) (not_lt.mpr htd),
    parseStat_dump, parseARX_extra⟩

/-- Witness for C10 at concrete records with one junk trailing byte. -/
theorem C10_trailing_bytes_witness :
    (0 ≤ (1 : ℚ) ∧ ([UB.n 222] : List UB) ≠ [])
    ∧ parsePID (dumpPID ⟨1, 2, 3, 0, 0⟩ ++ [UB.n 222]) = some (.pid ⟨1, 2, 3, 0, 0⟩)
    ∧ parseStat (dumpStat ⟨1, -1, 1, 0⟩ ++ [UB.n 222]) = some (.stat ⟨1, -1, 1, 0⟩)
    ∧ parseARX (dumpARX ⟨[1], [2], 1, 0, 0, [0], [0], [0], 5, 0⟩ ++ [UB.n 222]) = none :=
  ⟨⟨by decide, by decide⟩,
    C10_trailing_bytes.1 _ _ (by decide) (by decide) (by decide),
    C10_trailing_bytes.2.1 _ _,
    C10_trailing_bytes.2.2 _ _ (by decide)⟩

/-- Claim C7: an ARX model with `coeff_a = [-0.4]`, `coeff_b = [0.6]`,
transport delay 1 and zero noise, fed `u = 0, 1, 1, 1, 1, 1`, produces the
outputs `0, 0, 0.6, 0.84, 0.936, 0.9744` (exactly, hence within the claimed
`1e-3` tolerance). -/
theorem C7_arx_step :
    simOutputs (.arx ⟨[-(2/5)], [3/5], 1, 0, 0, [0], [0], [0], 0, 0⟩)
        [0, 1, 1, 1, 1, 1]
      = some [0, 0, 3/5, 21/25, 117/125, 609/625]
    ∧ List.Forall₂ (fun y c => |y - c| ≤ 1/1000)
        [(0 : ℚ), 0, 3/5, 21/25, 117/125, 609/625]
        [0, 0, 0.6, 0.84, 0.936, 0.9744] := by
  constructor
  · norm_num [simOutputs, symB, arxSym, dotOpt, stdnorm]
  · norm_num

/-- Claim C8: a loop with at least one child feeds the first child
`u - prev_result` when closed and `u` when open, each subsequent child
receives the previous child's output, and the last child's output is stored
as the new `prev_result` and returned. -/
theorem C8_loop_chain (closed : Bool) (prev : ℚ) (c : Blk) (cs : BlkList) (u : ℚ) :
    (symB (.loop closed prev (.cons c cs)) u
      = do
          let (c2, r1) ← symB c (if closed then u - prev else u)
          let (cs2, rf) ← symL cs r1
          pure (.loop closed rf (.cons c2 cs2), rf))
    ∧ ∀ (st : Blk) (y : ℚ), symB (.loop closed prev (.cons c cs)) u = some (st, y) →
        ∃ cs2, st = .loop closed y cs2 := by
  constructor
  · show (match symL (.cons c cs) (if closed then u - prev else u) with
      | some (cs2, r) => some (Blk.loop closed r cs2, r)
      | none => none) = _
    rw [symL]
    cases symB c (if closed then u - prev else u) with
    | none => rfl
    | some p =>
      cases p with
      | mk c2 r1 =>
        simp only [Option.bind_eq_bind, Option.some_bind]
        cases symL cs r1 with
        | none => rfl
        | some q => cases q with | mk cs2 rf => rfl
  · intro st y h
    rw [show symB (.loop closed prev (.cons c cs)) u
        = (match symL (.cons c cs) (if closed then u - prev else u) with
            | some (cs2, r) => some (Blk.loop closed r cs2, r)
            | none => none) from rfl] at h
    cases hL : symL (.cons c cs) (if closed then u - prev else u) with
    | none => rw [hL] at h; cases h
    | some q =>
      cases q with
      | mk cs2 r =>
        rw [hL] at h
        simp only [Option.some.injEq, Prod.mk.injEq] at h
        obtain ⟨h1, h2⟩ := h
        exact ⟨cs2, by rw [← h1, h2]⟩

/-- Counterexample to claim C2: simulating a closed loop with zero children
does not fail; it successfully returns `u - prev_result = 5`, a value derived
from the input. -/
theorem C2_counterexample :
    symB (.loop true 0 .nil) 5 = some (.loop true 5 .nil, 5) := by
  norm_num [symB, symL]

/-- Claim C2 (amended): `PętlaUAR::symuluj` on a loop with zero children does
not fail with any error; it returns `u - prev_result` if the loop is closed
(`u` if open) and stores that value as the new `prev_result`. -/
theorem C2_amended (closed : Bool) (prev u : ℚ) :
    symB (.loop closed prev .nil) u
      = some (.loop closed (if closed then u - prev else u) .nil,
          if closed then u - prev else u) := by
  rfl

/-- Counterexample to claim C3: with both generators always active
(`t_start = t_end = 0`), the rectangular generator with amplitude `3/4`,
period 8 and duty cycle `1/4` over a base of value 1 already contributes at
`t = 0` (`0 % 8 = 0 < 0.25 * 8 = 2`), so the output at `t = 0` is
`B + A = 7/4`, not `B = 1` as the claimed sequence states. -/
theorem C3_counterexample :
    genSym (.prostokat (.baza 1 0 0) (3/4) 8 (1/4) 0 0) 0 = 7/4
    ∧ (7/4 : ℚ) ≠ 1 := by
  constructor
  · norm_num [genSym, enabled_time, uintMod]
  · norm_num

/-- Claim C3 (amended): a rectangular generator with amplitude A, period 8
and duty cycle 0.25 decorating a base generator of constant value B (both
always active) produces for `t = 0..7` the sequence
`[B+A, B+A, B, B, B, B, B, B]`: the rectangular contribution is active at
`t mod 8 ∈ {0, 1}` (`t mod 8 < duty * period = 2`), not only at
`t mod 8 == 1`. -/
theorem C3_amended (A B : ℚ) :
    [genSym (.prostokat (.baza B 0 0) A 8 (1/4) 0 0) 0,
     genSym (.prostokat (.baza B 0 0) A 8 (1/4) 0 0) 1,
     genSym (.prostokat (.baza B 0 0) A 8 (1/4) 0 0) 2,
     genSym (.prostokat (.baza B 0 0) A 8 (1/4) 0 0) 3,
     genSym (.prostokat (.baza B 0 0) A 8 (1/4) 0 0) 4,
     genSym (.prostokat (.baza B 0 0) A 8 (1/4) 0 0) 5,
     genSym (.prostokat (.baza B 0 0) A 8 (1/4) 0 0) 6,
     genSym (.prostokat (.baza B 0 0) A 8 (1/4) 0 0) 7]
      = [B + A, B + A, B, B, B, B, B, B] := by
  norm_num [genSym, enabled_time, uintMod]
  exact ⟨fun h => absurd h (by decide), fun h => absurd h (by decide),
    fun h => absurd h (by decide), fun h => absurd h (by decide),
    fun h => absurd h (by decide), fun h => absurd h (by decide)⟩

/-- Counterexample to claim C4: `insert` with `index > size()` does not fail
with `IndexOutOfRange` — the code performs no bounds check and runs into
undefined behaviour (`std::next` past `cend()` fed to `std::vector::insert`);
and a failing multi-insert does not leave the children unchanged — with
`insert(0, block, nullptr)` the first block is already inserted when the null
check on the second throws. -/
theorem C4_counterexample :
    PetlaUAR.insertAt .nil 5 (some (.stat ⟨1, -1, 1, 0⟩)) = .error .undefinedBehaviour
    ∧ LoopErr.undefinedBehaviour ≠ LoopErr.indexOutOfRange
    ∧ PetlaUAR.insertMany .nil 0 [some (.stat ⟨1, -1, 1, 0⟩), none]
        = (.cons (.stat ⟨1, -1, 1, 0⟩) .nil, some .nullChild)
    ∧ BlkList.cons (.stat ⟨1, -1, 1, 0⟩) .nil ≠ .nil := by
  refine ⟨rfl, by decide, rfl, by decide⟩

/-- Claim C4 (amended): every mutation operation rejects a null block with
`NullChild` before touching the loop; `erase` fails with `IndexOutOfRange`
when `index ≥ size()` (leaving the children unchanged, since the check
precedes the mutation); single `insert` performs no bounds check — it inserts
when `index ≤ size()` and is undefined behaviour when `index > size()` — and
a multi-insert whose first block is null leaves the loop unchanged, while a
null later in the argument list only fails after the earlier blocks were
already inserted. -/
theorem C4_amended :
    (∀ l : BlkList, PetlaUAR.push_back l none = .error .nullChild)
    ∧ (∀ (l : BlkList) (i : Nat), PetlaUAR.insertAt l i none = .error .nullChild)
    ∧ (∀ (l : BlkList) (i : Nat), lenL l ≤ i →
        PetlaUAR.erase l i = .error .indexOutOfRange)
    ∧ (∀ (l : BlkList) (i : Nat) (b : Blk), i ≤ lenL l →
        PetlaUAR.insertAt l i (some b) = .ok (insertIdxL l i b))
    ∧ (∀ (l : BlkList) (i : Nat) (b : Blk), lenL l < i →
        PetlaUAR.insertAt l i (some b) = .error .undefinedBehaviour)
    ∧ (∀ (l : BlkList) (i : Nat) (vs : List ChildPtr),
        PetlaUAR.insertMany l i (none :: vs) = (l, some .nullChild)) := by
  refine ⟨fun l => rfl, fun l i => rfl, ?_, ?_, ?_, ?_⟩
  · intro l i h
    rw [PetlaUAR.erase, if_pos h]
  · intro l i b h
    show (if i ≤ lenL l then Except.ok (insertIdxL l i b)
          else Except.error LoopErr.undefinedBehaviour) = _
    rw [if_pos h]
  · intro l i b h
    show (if i ≤ lenL l then Except.ok (insertIdxL l i b)
          else Except.error LoopErr.undefinedBehaviour) = _
    rw [if_neg (by omega)]
  · intro l i vs
    rfl

/-- Witness for C4 (amended) at concrete inputs. -/
theorem C4_amended_witness :
    PetlaUAR.push_back .nil none = .error .nullChild
    ∧ PetlaUAR.insertAt .nil 0 none = .error .nullChild
    ∧ (lenL .nil ≤ 0 ∧ PetlaUAR.erase .nil 0 = .error .indexOutOfRange)
    ∧ (0 ≤ lenL .nil ∧ PetlaUAR.insertAt .nil 0 (some (.stat ⟨1, -1, 1, 0⟩))
        = .ok (insertIdxL .nil 0 (.stat ⟨1, -1, 1, 0⟩)))
    ∧ (lenL .nil < 1 ∧ PetlaUAR.insertAt .nil 1 (some (.stat ⟨1, -1, 1, 0⟩))
        = .error .undefinedBehaviour)
    ∧ PetlaUAR.insertMany .nil 2 [none] = (.nil, some .nullChild) :=
  ⟨C4_amended.1 .nil, C4_amended.2.1 .nil 0,
    ⟨by decide, C4_amended.2.2.1 .nil 0 (by decide)⟩,
    ⟨by decide, C4_amended.2.2.2.1 .nil 0 _ (by decide)⟩,
    ⟨by decide, C4_amended.2.2.2.2.1 .nil 1 _ (by decide)⟩,
    C4_amended.2.2.2.2.2 .nil 2 []⟩

/-- Counterexample to claim C5: an ARX state whose output window holds the
sample `3/5`; calling `set_coeff_a` with two coefficients resizes the window
to `[3/5, 0]` — the previously stored sample `3/5` is still there
(`std::deque::resize` preserves the leading entries), contradicting "no
previously stored sample remains". -/
theorem C5_counterexample :
    (ArxS.set_coeff_a ⟨[-(2/5)], [3/5], 1, 0, 0, [1], [3/5], [1], 0, 1⟩
        [1, 2]).outMem = [3/5, 0]
    ∧ (3/5 : ℚ) ∈ (ArxS.set_coeff_a ⟨[-(2/5)], [3/5], 1, 0, 0, [1], [3/5], [1], 0, 1⟩
        [1, 2]).outMem := by
  constructor
  · simp [ArxS.set_coeff_a, List.replicate]
  · simp [ArxS.set_coeff_a]

/-- Claim C5 (amended): `set_coeff_a` (resp. `set_coeff_b`) resizes `out_mem`
(resp. `in_mem`) to the new coefficient count, but `std::deque::resize`
preserves the old window contents up to truncation: the first
`min(new, old)` samples are kept, and only positions beyond the old length
are zero-filled. -/
theorem C5_amended (s : ArxS) (c : List ℚ) :
    ((ArxS.set_coeff_a s c).coeffA = c
      ∧ (ArxS.set_coeff_a s c).outMem.length = c.length
      ∧ (∀ i : Nat, i < min c.length s.outMem.length →
          (ArxS.set_coeff_a s c).outMem[i]? = s.outMem[i]?)
      ∧ (∀ i : Nat, s.outMem.length ≤ i → i < c.length →
          (ArxS.set_coeff_a s c).outMem[i]? = some 0))
    ∧ ((ArxS.set_coeff_b s c).coeffB = c
      ∧ (ArxS.set_coeff_b s c).inMem.length = c.length
      ∧ (∀ i : Nat, i < min c.length s.inMem.length →
          (ArxS.set_coeff_b s c).inMem[i]? = s.inMem[i]?)
      ∧ (∀ i : Nat, s.inMem.length ≤ i → i < c.length →
          (ArxS.set_coeff_b s c).inMem[i]? = some 0)) := by
  constructor
  · refine ⟨rfl, by simp [ArxS.set_coeff_a]; omega, ?_, ?_⟩
    · intro i hi
      rw [show (ArxS.set_coeff_a s c).outMem
          = s.outMem.take c.length ++ List.replicate (c.length - s.outMem.length) 0
          from rfl]
      rw [List.getElem?_append, if_pos (by simp; omega)]
      exact List.getElem?_take_of_lt (by omega)
    · intro i h1 h2
      rw [show (ArxS.set_coeff_a s c).outMem
          = s.outMem.take c.length ++ List.replicate (c.length - s.outMem.length) 0
          from rfl]
      rw [List.getElem?_append_right (by simp; omega)]
      rw [List.getElem?_replicate]
      rw [if_pos (by simp; omega)]
  · refine ⟨rfl, by simp [ArxS.set_coeff_b]; omega, ?_, ?_⟩
    · intro i hi
      rw [show (ArxS.set_coeff_b s c).inMem
          = s.inMem.take c.length ++ List.replicate (c.length - s.inMem.length) 0
          from rfl]
      rw [List.getElem?_append, if_pos (by simp; omega)]
      exact List.getElem?_take_of_lt (by omega)
    · intro i h1 h2
      rw [show (ArxS.set_coeff_b s c).inMem
          = s.inMem.take c.length ++ List.replicate (c.length - s.inMem.length) 0
          from rfl]
      rw [List.getElem?_append_right (by simp; omega)]
      rw [List.getElem?_replicate]
      rw [if_pos (by simp; omega)]

/-- Witness for C5 (amended) at a concrete state. -/
theorem C5_amended_witness :
    ((ArxS.set_coeff_a ⟨[1], [2], 1, 0, 0, [0], [5], [0], 0, 0⟩ [1, 2]).outMem.length = 2
      ∧ (0 < min 2 1 ∧ (ArxS.set_coeff_a ⟨[1], [2], 1, 0, 0, [0], [5], [0], 0, 0⟩
          [1, 2]).outMem[0]? = ([(5 : ℚ)])[0]?)
      ∧ (1 ≤ 1 ∧ 1 < 2 ∧ (ArxS.set_coeff_a ⟨[1], [2], 1, 0, 0, [0], [5], [0], 0, 0⟩
          [1, 2]).outMem[1]? = some 0)) :=
  ⟨(C5_amended ⟨[1], [2], 1, 0, 0, [0], [5], [0], 0, 0⟩ [1, 2]).1.2.1,
    ⟨by decide, (C5_amended ⟨[1], [2], 1, 0, 0, [0], [5], [0], 0, 0⟩ [1, 2]).1.2.2.1 0
      (by decide)⟩,
    ⟨by decide, by decide, (C5_amended ⟨[1], [2], 1, 0, 0, [0], [5], [0], 0, 0⟩
        [1, 2]).1.2.2.2 1 (by decide) (by decide)⟩⟩

/-- Claim C9: RegulatorPID construction and the setters `set_k`, `set_ti`,
`set_td` reject negative zero: `is_bad_or_neg` tests `std::signbit`, which is
set for `-0.0`, so passing `-0.0` for `k`, `ti` or `td` throws — even though
`-0.0` has numeric value `0` (equal to `0.0` and not negative). -/
theorem C9_negzero_rejected :
    (∀ ti td : FP, RegulatorPID_mk negZeroFP ti td = none)
    ∧ (∀ k td : FP, RegulatorPID_mk k negZeroFP td = none)
    ∧ (∀ k ti : FP, RegulatorPID_mk k ti negZeroFP = none)
    ∧ (∀ r : PidParams, RegulatorPID.set_k r negZeroFP = none)
    ∧ (∀ r : PidParams, RegulatorPID.set_ti r negZeroFP = none)
    ∧ (∀ r : PidParams, RegulatorPID.set_td r negZeroFP = none)
    ∧ FP.val negZeroFP = 0 ∧ ¬FP.val negZeroFP < 0 := by
  refine ⟨?_, ?_, ?_, fun r => rfl, fun r => rfl, fun r => rfl, by norm_num [FP.val, negZeroFP], by norm_num [FP.val, negZeroFP]⟩
  · intro ti td
    simp [RegulatorPID_mk, is_bad_or_neg, negZeroFP]
  · intro k td
    simp [RegulatorPID_mk, is_bad_or_neg, negZeroFP]
  · intro k ti
    simp [RegulatorPID_mk, is_bad_or_neg, negZeroFP]
